import Mathlib

/-!
# Verification of the MNIST transform pipeline (`src/datasets/mnist_transforms.ipynb`)

The notebook builds
`transform = Compose([convert_to_RGB, Resize(size=256), sharpen, ToTensor()])`
and feeds MNIST samples through it via `DataLoader(batch_size=1)`.

We embed the value semantics of the pipeline:

* `Image` models a decoded PIL raster: a color mode (`L` or `RGB`), width,
  height, and a pixel map.  PIL pixel values are 8-bit; the embedding uses
  `Nat` and carries the bound `≤ 255` as an explicit well-formedness
  predicate where a claim needs it.
* `Image.convertRGB` embeds `img.convert('RGB')`: a grayscale pixel `v`
  becomes `(v, v, v)`; an image already in RGB mode is returned as is
  (PIL returns a value-identical copy).
* `resize` embeds `torchvision.transforms.Resize(size)` with an integer
  `size`: if the smaller edge already equals `size` the image is returned
  unchanged; otherwise the smaller edge is scaled to `size` and the other
  edge to `size * long / short` with truncating integer division, exactly
  the torchvision geometry.  The resampling of pixel values is modelled as
  deterministic per-channel sampling from the source plane; the library's
  interpolation weights are internal to PIL and no claim below depends on
  them, only on determinism, channel-uniformity and range preservation,
  which any PIL interpolation policy shares.
* `Image.sharpen` embeds `img.filter(ImageFilter.SHARPEN)`: PIL's fixed
  3×3 kernel `(-2 … 32 … -2)` with divisor 16 and offset 0, applied per
  channel on interior pixels with the result clipped to `[0, 255]`;
  border pixels are copied from the input, as PIL's kernel filters do.
  PIL's exact rounding of the division is internal to its C code and no
  claim depends on it; the embedding uses integer division before the clip.
* `toTensor` embeds `torchvision.transforms.ToTensor()`: a channel-first
  tensor of rationals `v / 255`.
* `Val`/`composeApply` embed `torchvision.transforms.Compose`, the untyped
  left-to-right fold over the transform list.
* `mnistGetItem`, `collateImage`, `collateLabel` embed the dataset
  `__getitem__` (label passed through, `target_transform=None`) and the
  `batch_size=1` DataLoader's default collate, which stacks the image
  tensor into a leading batch dimension and turns the Python `int` label
  into a 1-element integer tensor.
-/

/-- PIL color modes used by the notebook: grayscale `L` (MNIST's native
mode) and `RGB`. -/
inductive Mode where
  | L : Mode
  | RGB : Mode
deriving DecidableEq

/-- Number of channels `ToTensor` produces for a mode. -/
def Mode.numChannels : Mode → Nat
  | .L => 1
  | .RGB => 3

/-- A pixel of a decoded raster: a single 8-bit sample for mode `L`,
a triple for mode `RGB`. -/
inductive Pix where
  | l (v : Nat) : Pix
  | rgb (r g b : Nat) : Pix
deriving DecidableEq

/-- Channel accessor: channel `c` of a pixel.  A grayscale pixel reads the
same on every channel; an RGB pixel reads `r`, `g`, `b` for channels
`0`, `1`, `2`. -/
def Pix.ch : Pix → Nat → Nat
  | .l v, _ => v
  | .rgb r _ _, 0 => r
  | .rgb _ g _, 1 => g
  | .rgb _ _ b, _ => b

/-- All samples of the pixel are 8-bit (≤ 255). -/
def Pix.bounded : Pix → Prop
  | .l v => v ≤ 255
  | .rgb r g b => r ≤ 255 ∧ g ≤ 255 ∧ b ≤ 255

/-- An in-memory decoded raster: color mode, width, height, pixel map
(row `y`, column `x`). -/
structure Image where
  mode : Mode
  width : Nat
  height : Nat
  px : Nat → Nat → Pix

/-- Every pixel of the image is 8-bit. -/
def Image.bounded (img : Image) : Prop :=
  ∀ y x, (img.px y x).bounded

/-- The per-channel plane of an image. -/
def Image.plane (img : Image) (c : Nat) : Nat → Nat → Nat :=
  fun y x => (img.px y x).ch c

/-- `convert_to_RGB`, i.e. `img.convert('RGB')`: an RGB image is returned
as is (PIL returns a value-identical copy); a grayscale image has its
single channel replicated into three. -/
def Image.convertRGB (img : Image) : Image :=
  match img.mode with
  | .RGB => img
  | .L =>
    { mode := .RGB, width := img.width, height := img.height,
      px := fun y x =>
        match img.px y x with
        | .l v => .rgb v v v
        | p => p }

/-- Clip an integer sample into the 8-bit range, as PIL's filter kernel
does. -/
def clip8 (x : Int) : Nat := (max 0 (min 255 x)).toNat

/-- The PIL `SHARPEN` kernel at an interior point of a channel plane:
weights `(-2, …, 32, …, -2)`, divisor 16, offset 0, clipped to 8 bits. -/
def sharpenVal (p : Nat → Nat → Nat) (y x : Nat) : Nat :=
  clip8 ((32 * (p y x : Int)
    - 2 * ((p (y-1) (x-1) : Int) + (p (y-1) x : Int) + (p (y-1) (x+1) : Int)
      + (p y (x-1) : Int) + (p y (x+1) : Int)
      + (p (y+1) (x-1) : Int) + (p (y+1) x : Int) + (p (y+1) (x+1) : Int))) / 16)

/-- `sharpen`, i.e. `img.filter(ImageFilter.SHARPEN)`: the fixed 3×3
kernel applied per channel on interior pixels; border pixels are copied
from the input. -/
def Image.sharpen (img : Image) : Image :=
  { img with
    px := fun y x =>
      if y = 0 ∨ img.height ≤ y + 1 ∨ x = 0 ∨ img.width ≤ x + 1 then
        img.px y x
      else
        match img.px y x with
        | .l _ => .l (sharpenVal (img.plane 0) y x)
        | .rgb _ _ _ =>
          .rgb (sharpenVal (img.plane 0) y x)
            (sharpenVal (img.plane 1) y x)
            (sharpenVal (img.plane 2) y x) }

/-- Resample an image to `ow × oh`, per channel, deterministically from the
source plane (the geometric part of `img.resize`; interpolation weights are
PIL-internal, see the header comment). -/
def Image.resizeTo (img : Image) (ow oh : Nat) : Image :=
  { mode := img.mode, width := ow, height := oh,
    px := fun y x => img.px (y * img.height / oh) (x * img.width / ow) }

/-- `torchvision.transforms.Resize(size)` with an integer `size`: if the
smaller edge already equals `size` the image is returned unchanged;
otherwise the smaller edge is scaled to `size` and the longer edge to
`size * long / short` (truncating division), preserving aspect ratio. -/
def resize (s : Nat) (img : Image) : Image :=
  if (img.width ≤ img.height ∧ img.width = s)
      ∨ (img.height ≤ img.width ∧ img.height = s) then
    img
  else if img.width < img.height then
    img.resizeTo s (s * img.height / img.width)
  else
    img.resizeTo (s * img.width / img.height) s

/-- The terminal tensor: channel-first numeric array with rational
entries. -/
structure Tensor where
  channels : Nat
  height : Nat
  width : Nat
  val : Nat → Nat → Nat → ℚ

/-- Shape of a tensor as a triple `(C, H, W)`. -/
def Tensor.shape (t : Tensor) : Nat × Nat × Nat := (t.channels, t.height, t.width)

/-- Shape of a tensor as a list `[C, H, W]` (`torch.Size`). -/
def Tensor.shapeL (t : Tensor) : List Nat := [t.channels, t.height, t.width]

/-- `torchvision.transforms.ToTensor()`: channel-first tensor with each
8-bit sample scaled by `1/255`. -/
def toTensor (img : Image) : Tensor :=
  { channels := img.mode.numChannels, height := img.height, width := img.width,
    val := fun c y x => ((img.px y x).ch c : ℚ) / 255 }

/-- The notebook's transform applied to one image:
`ToTensor(sharpen(Resize(256)(convert_to_RGB(img))))`. -/
def pipeline (img : Image) : Tensor :=
  toTensor (Image.sharpen (resize 256 (Image.convertRGB img)))

/-- The untyped value universe `Compose` folds over: a PIL image or a
tensor. -/
inductive Val where
  | img (i : Image) : Val
  | tensor (t : Tensor) : Val

/-- Lift an image-to-image transform to the untyped universe. -/
def liftI (f : Image → Image) : Val → Val
  | .img i => .img (f i)
  | v => v

/-- Lift `ToTensor` to the untyped universe. -/
def liftT : Val → Val
  | .img i => .tensor (toTensor i)
  | v => v

/-- `torchvision.transforms.Compose(ts)`: apply the transforms
left-to-right. -/
def composeApply (ts : List (Val → Val)) (v : Val) : Val :=
  ts.foldl (fun a t => t a) v

/-- The notebook's transform list
`[convert_to_RGB, Resize(size=256), sharpen, ToTensor()]`. -/
def transformList : List (Val → Val) :=
  [liftI Image.convertRGB, liftI (resize 256), liftI Image.sharpen, liftT]

/-- A grayscale 28×28 raster, the shape of every MNIST sample. -/
def mnistImage (px : Nat → Nat → Pix) : Image :=
  { mode := .L, width := 28, height := 28, px := px }

/-- The all-black grayscale 28×28 image, a concrete MNIST-shaped input. -/
def blackMNIST : Image := mnistImage (fun _ _ => .l 0)

/-- A grayscale 28×56 image: a non-square input for the aspect-ratio
counterexample. -/
def tallImage : Image := { mode := .L, width := 28, height := 56, px := fun _ _ => .l 0 }

section StructuralLemmas

@[simp] theorem sharpen_mode (img : Image) : img.sharpen.mode = img.mode := rfl

@[simp] theorem sharpen_width (img : Image) : img.sharpen.width = img.width := rfl

@[simp] theorem sharpen_height (img : Image) : img.sharpen.height = img.height := rfl

@[simp] theorem convertRGB_mode (img : Image) : img.convertRGB.mode = .RGB := by
  obtain ⟨m, w, h, px⟩ := img
  cases m <;> rfl

@[simp] theorem convertRGB_width (img : Image) : img.convertRGB.width = img.width := by
  obtain ⟨m, w, h, px⟩ := img
  cases m <;> rfl

@[simp] theorem convertRGB_height (img : Image) : img.convertRGB.height = img.height := by
  obtain ⟨m, w, h, px⟩ := img
  cases m <;> rfl

@[simp] theorem resize_mode (s : Nat) (img : Image) : (resize s img).mode = img.mode := by
  unfold resize
  split_ifs <;> rfl

@[simp] theorem toTensor_channels (img : Image) :
    (toTensor img).channels = img.mode.numChannels := rfl

@[simp] theorem toTensor_height (img : Image) : (toTensor img).height = img.height := rfl

@[simp] theorem toTensor_width (img : Image) : (toTensor img).width = img.width := rfl

/-- On a square image of positive size, `Resize(256)` produces a 256×256
image: either the guard fires (both edges already equal 256) or the
else-branch computes `256 * w / h = 256` from `w = h`. -/
theorem resize_square_dims (img : Image) (hsq : img.width = img.height)
    (hw : 0 < img.width) :
    (resize 256 img).width = 256 ∧ (resize 256 img).height = 256 := by
  unfold resize
  split_ifs with h1 h2
  · rcases h1 with ⟨_, h⟩ | ⟨_, h⟩ <;> omega
  · omega
  · refine ⟨?_, rfl⟩
    show 256 * img.width / img.height = 256
    rw [← hsq, Nat.mul_div_cancel _ hw]

end StructuralLemmas

/-- **C1** (amended).  For every input image that is square with positive
size — in particular every 28×28 grayscale MNIST sample — the pipeline
`[convert_to_RGB, Resize(256), sharpen, ToTensor]` outputs a tensor of
shape `(3, 256, 256)`.  (For non-square inputs `Resize(size=256)` with an
integer size preserves the aspect ratio, so the claimed shape does not
hold for every aspect ratio; see the counterexample.) -/
theorem pipeline_shape_square (img : Image) (hsq : img.width = img.height)
    (hw : 0 < img.width) : (pipeline img).shape = (3, 256, 256) := by
  have hsq' : img.convertRGB.width = img.convertRGB.height := by
    simpa using hsq
  have hw' : 0 < img.convertRGB.width := by simpa using hw
  obtain ⟨hrw, hrh⟩ := resize_square_dims img.convertRGB hsq' hw'
  unfold pipeline Tensor.shape
  simp [hrw, hrh, Mode.numChannels]

/-- Witness for C1: the concrete all-black 28×28 grayscale image satisfies
the hypotheses and gets shape `(3, 256, 256)`. -/
theorem pipeline_shape_square_witness :
    blackMNIST.width = blackMNIST.height ∧ 0 < blackMNIST.width ∧
      (pipeline blackMNIST).shape = (3, 256, 256) :=
  ⟨rfl, by decide, pipeline_shape_square blackMNIST rfl (by decide)⟩

/-- Counterexample for C1 as stated: a grayscale 28×56 input (width 28,
height 56) comes out of the pipeline with shape `(3, 512, 256)`, not
`(3, 256, 256)` — `Resize(size=256)` scales the smaller edge to 256 and
keeps the aspect ratio. -/
theorem pipeline_shape_not_universal :
    (pipeline tallImage).shape = (3, 512, 256) ∧
      (pipeline tallImage).shape ≠ (3, 256, 256) := by
  constructor <;> decide

/-- **C2**.  The pipeline is a deterministic (pure) function of its input
image: two runs on the same image yield identical output tensors.  The
embedding is faithful on this point because no transform in the source —
`convert('RGB')`, `Resize`, the fixed `SHARPEN` kernel, `ToTensor` —
draws randomness or reads mutable state. -/
theorem pipeline_deterministic (img : Image) : pipeline img = pipeline img := rfl

/-- **C6**.  `convert_to_RGB` is idempotent: converting an image to RGB
twice yields the same image as converting once (the second conversion sees
an RGB-mode image and returns it unchanged). -/
theorem convertRGB_idem (img : Image) :
    img.convertRGB.convertRGB = img.convertRGB := by
  obtain ⟨m, w, h, px⟩ := img
  cases m <;> rfl

/-- **C7**.  The `Compose` of the notebook's four transforms equals their
left-to-right nested application: folding
`[convert_to_RGB, Resize(256), sharpen, ToTensor]` over an image value is
`ToTensor(sharpen(Resize(256)(convert_to_RGB(img))))`, i.e. `pipeline`. -/
theorem composeApply_eq_pipeline (img : Image) :
    composeApply transformList (.img img) = .tensor (pipeline img) := rfl

/-! ## Dataset and DataLoader delivery

`datasets.MNIST(..., transform=transform)` applies `transform` to the
decoded image and passes the integer label through unchanged
(`target_transform` is `None`).  `DataLoader(mnist_trainset, batch_size=1)`
with the default collate stacks the single image tensor behind a leading
batch dimension of size 1 and converts the Python `int` label into a
1-element integer tensor. -/

/-- A Python value a label can take on its way to the consumer: the `int`
the dataset emits, or the 1-D integer tensor the default collate builds. -/
inductive PyLabel where
  | int (n : Nat) : PyLabel
  | tensor1 (entries : List Nat) : PyLabel
deriving DecidableEq

/-- `mnist_trainset[i]`: the transformed image together with the untouched
integer label. -/
def mnistGetItem (img : Image) (lbl : Nat) : Tensor × Nat :=
  (pipeline img, lbl)

/-- A batched image tensor as the DataLoader delivers it. -/
structure BatchTensor where
  shape : List Nat
  val : Nat → Nat → Nat → Nat → ℚ

/-- Default collate on a single image tensor: stack behind a leading batch
dimension of size 1. -/
def collateImage (t : Tensor) : BatchTensor :=
  { shape := 1 :: t.shapeL, val := fun _ c y x => t.val c y x }

/-- Default collate on a single integer label: a 1-element integer
tensor. -/
def collateLabel (lbl : Nat) : PyLabel :=
  .tensor1 [lbl]

/-- `img, lbl = next(iter(train_loader))`, image component. -/
def loaderNextImage (img : Image) (lbl : Nat) : BatchTensor :=
  collateImage (mnistGetItem img lbl).1

/-- `img, lbl = next(iter(train_loader))`, label component. -/
def loaderNextLabel (img : Image) (lbl : Nat) : PyLabel :=
  collateLabel (mnistGetItem img lbl).2

/-- **C4** (amended).  The pipeline itself passes the label through
unmodified — `mnist_trainset[i]` pairs the transformed image with the
original integer label — and delivery through the `batch_size=1`
DataLoader preserves the label's value but wraps it in a one-element
integer tensor `[L]`.  (As stated the claim also asserted the type is
unchanged by the delivery; the default collate changes `int` to a
1-element tensor, see the counterexample.) -/
theorem label_passthrough (img : Image) (lbl : Nat) :
    (mnistGetItem img lbl).2 = lbl ∧ loaderNextLabel img lbl = .tensor1 [lbl] :=
  ⟨rfl, rfl⟩

/-- Counterexample for C4 as stated: for a sample with label 5, the object
the consumer receives from the loader is the 1-element tensor `[5]`, not
the unchanged `int 5` — the delivery changes the label's type. -/
theorem label_delivery_changes_type :
    loaderNextLabel blackMNIST 5 = .tensor1 [5] ∧
      loaderNextLabel blackMNIST 5 ≠ .int 5 :=
  ⟨rfl, by decide⟩

/-- **C9**.  With `batch_size=1`, the consumer-visible image carries a
leading batch dimension: for every MNIST-shaped (grayscale 28×28) sample
the delivered shape is `[1, 3, 256, 256]`, which differs from the
per-image shape `[3, 256, 256]`. -/
theorem loader_image_shape (px : Nat → Nat → Pix) (lbl : Nat) :
    (loaderNextImage (mnistImage px) lbl).shape = [1, 3, 256, 256] ∧
      (pipeline (mnistImage px)).shapeL = [3, 256, 256] ∧
      (loaderNextImage (mnistImage px) lbl).shape ≠ (pipeline (mnistImage px)).shapeL := by
  have hd := resize_square_dims (mnistImage px).convertRGB
    (by simp [mnistImage]) (by norm_num [mnistImage])
  have h2 : (pipeline (mnistImage px)).shapeL = [3, 256, 256] := by
    unfold pipeline Tensor.shapeL
    simp [hd.1, hd.2, Mode.numChannels]
  have h1 : (loaderNextImage (mnistImage px) lbl).shape = [1, 3, 256, 256] := by
    unfold loaderNextImage collateImage mnistGetItem
    simp [h2]
  refine ⟨h1, h2, ?_⟩
  rw [h1, h2]
  decide

/-! ## Construction-time validation of the resize target -/

/-- Invalid transform parameters detected at pipeline-construction time. -/
inductive ConfigurationError where
  | nonPositiveSize : ConfigurationError
deriving DecidableEq

/-- Modelled from the spec: the constructor of the resize transform lives
in `torchvision.transforms.Resize`, external library code not under
`src/`; the spec requires that a zero or negative configured target size
be rejected as a `ConfigurationError` at pipeline-construction time,
before any image is processed.  Construction takes the (possibly
negative) requested size and either fails or yields the per-image resize
transform. -/
def mkResize (s : Int) : Except ConfigurationError (Image → Image) :=
  if s ≤ 0 then .error .nonPositiveSize
  else .ok (resize s.toNat)

/-- **C5**.  Configuring the resize transform with a zero or negative
target size fails with a `ConfigurationError` at construction: no resize
transform is ever produced, so no image can be processed with the bad
configuration — the failure is not deferred to per-sample execution. -/
theorem mkResize_nonpositive (s : Int) (hs : s ≤ 0) :
    mkResize s = .error .nonPositiveSize ∧
      ∀ f : Image → Image, mkResize s ≠ .ok f := by
  unfold mkResize
  rw [if_pos hs]
  exact ⟨rfl, fun f h => by cases h⟩

/-- Witness for C5: the concrete size −3 is rejected at construction. -/
theorem mkResize_nonpositive_witness :
    mkResize (-3) = .error .nonPositiveSize ∧
      ∀ f : Image → Image, mkResize (-3) ≠ .ok f :=
  mkResize_nonpositive (-3) (by decide)

/-! ## Pixel-range preservation -/

/-- Every channel read of an 8-bit pixel is ≤ 255. -/
theorem Pix.ch_le {p : Pix} (hp : p.bounded) (c : Nat) : p.ch c ≤ 255 := by
  cases p with
  | l v => exact hp
  | rgb r g b =>
    obtain ⟨hr, hg, hb⟩ := hp
    match c with
    | 0 => exact hr
    | 1 => exact hg
    | n + 2 => exact hb

theorem clip8_le (x : Int) : clip8 x ≤ 255 := by
  have h : max 0 (min 255 x) ≤ (255 : Int) :=
    max_le (by norm_num) (min_le_left _ _)
  exact Int.toNat_le.mpr h

theorem convertRGB_bounded {img : Image} (h : img.bounded) :
    img.convertRGB.bounded := by
  obtain ⟨m, w, hh, px⟩ := img
  cases m with
  | RGB => exact h
  | L =>
    intro y x
    have hb : (px y x).bounded := h y x
    show (match px y x with | .l v => Pix.rgb v v v | p => p).bounded
    cases hp : px y x with
    | l v => rw [hp] at hb; exact ⟨hb, hb, hb⟩
    | rgb r g b => rw [hp] at hb; exact hb

theorem resizeTo_bounded {img : Image} (h : img.bounded) (ow oh : Nat) :
    (img.resizeTo ow oh).bounded := by
  intro y x
  exact h _ _

theorem resize_bounded {img : Image} (h : img.bounded) (s : Nat) :
    (resize s img).bounded := by
  unfold resize
  split_ifs with h1 h2
  · exact h
  · exact resizeTo_bounded h _ _
  · exact resizeTo_bounded h _ _

theorem sharpen_bounded {img : Image} (h : img.bounded) :
    img.sharpen.bounded := by
  intro y x
  have hb := h y x
  simp only [Image.sharpen]
  split
  · exact hb
  · cases hp : img.px y x with
    | l v => exact clip8_le _
    | rgb r g b => exact ⟨clip8_le _, clip8_le _, clip8_le _⟩

/-- **C3**.  For every 8-bit input image, every element of the tensor the
terminal `ToTensor` step produces lies in `[0, 1]`: RGB conversion and
resize only move 8-bit samples around, the sharpen kernel clips its result
into `[0, 255]`, and `ToTensor` scales by `1/255`. -/
theorem pipeline_range (img : Image) (h : img.bounded) (c y x : Nat) :
    0 ≤ (pipeline img).val c y x ∧ (pipeline img).val c y x ≤ 1 := by
  have hb : (Image.sharpen (resize 256 img.convertRGB)).bounded :=
    sharpen_bounded (resize_bounded (convertRGB_bounded h) 256)
  unfold pipeline toTensor
  constructor
  · positivity
  · rw [div_le_one (by norm_num)]
    exact_mod_cast Pix.ch_le (hb y x) c

/-- Witness for C3: a concrete bounded image, evaluated at element
`(0, 0, 0)`. -/
theorem pipeline_range_witness :
    0 ≤ (pipeline blackMNIST).val 0 0 0 ∧ (pipeline blackMNIST).val 0 0 0 ≤ 1 :=
  pipeline_range blackMNIST (fun _ _ => Nat.zero_le 255) 0 0 0

/-! ## Channel uniformity for grayscale inputs -/

/-- All three (and any further) channel reads of a replicated-gray pixel
agree. -/
theorem Pix.ch_rgb_uniform (v c : Nat) : Pix.ch (.rgb v v v) c = v := by
  match c with
  | 0 => rfl
  | 1 => rfl
  | n + 2 => rfl

/-- Every pixel of the image is a replicated gray value `(v, v, v)`. -/
def Image.uniformRGB (img : Image) : Prop :=
  ∀ y x, ∃ v, img.px y x = .rgb v v v

theorem convertRGB_uniform {img : Image} (hm : img.mode = .L)
    (hg : ∀ y x, ∃ v, img.px y x = .l v) : img.convertRGB.uniformRGB := by
  obtain ⟨m, w, h, px⟩ := img
  cases m with
  | RGB => exact absurd hm (by simp)
  | L =>
    intro y x
    obtain ⟨v, hv⟩ := hg y x
    refine ⟨v, ?_⟩
    show (match px y x with | .l v => Pix.rgb v v v | p => p) = _
    rw [show px y x = _ from hv]

theorem resize_uniform {img : Image} (h : img.uniformRGB) (s : Nat) :
    (resize s img).uniformRGB := by
  unfold resize
  split_ifs with h1 h2
  · exact h
  · intro y x; exact h _ _
  · intro y x; exact h _ _

theorem sharpen_uniform {img : Image} (h : img.uniformRGB) :
    img.sharpen.uniformRGB := by
  have hplane : ∀ c, img.plane c = img.plane 0 := by
    intro c
    funext a b
    obtain ⟨u, hu⟩ := h a b
    simp [Image.plane, hu, Pix.ch_rgb_uniform]
  intro y x
  obtain ⟨v, hv⟩ := h y x
  simp only [Image.sharpen]
  split
  · exact ⟨v, hv⟩
  · rw [hv, hplane 1, hplane 2]
    exact ⟨sharpenVal (img.plane 0) y x, rfl⟩

theorem toTensor_uniform_channels {img : Image} (h : img.uniformRGB)
    (c c' y x : Nat) : (toTensor img).val c y x = (toTensor img).val c' y x := by
  obtain ⟨v, hv⟩ := h y x
  simp [toTensor, hv, Pix.ch_rgb_uniform]

/-- **C10**.  For every grayscale (mode `L`, single-channel) input image,
the three channels of the pipeline's output tensor are identical:
`convert_to_RGB` replicates the single channel, and resize, sharpen and
`ToTensor` act on each channel identically. -/
theorem pipeline_channels_equal (img : Image) (hm : img.mode = .L)
    (hg : ∀ y x, ∃ v, img.px y x = .l v) (y x : Nat) :
    (pipeline img).val 0 y x = (pipeline img).val 1 y x ∧
      (pipeline img).val 1 y x = (pipeline img).val 2 y x := by
  have hu : (Image.sharpen (resize 256 img.convertRGB)).uniformRGB :=
    sharpen_uniform (resize_uniform (convertRGB_uniform hm hg) 256)
  exact ⟨toTensor_uniform_channels hu 0 1 y x, toTensor_uniform_channels hu 1 2 y x⟩

/-- Witness for C10: the concrete grayscale 28×28 image, at pixel
`(0, 0)`. -/
theorem pipeline_channels_equal_witness :
    (pipeline blackMNIST).val 0 0 0 = (pipeline blackMNIST).val 1 0 0 ∧
      (pipeline blackMNIST).val 1 0 0 = (pipeline blackMNIST).val 2 0 0 :=
  pipeline_channels_equal blackMNIST rfl (fun _ _ => ⟨0, rfl⟩) 0 0
